import Mathlib

/-!
Shallow embedding of the Klondike Solitaire rules engine
(`src/sim/card.py`, `src/sim/deck.py`, `src/sim/games/klondike.py`).

Conventions of the embedding:
* Python exceptions are modelled by `Err`; functions that can raise return
  `Except Err _`.  Methods that mutate `Game` in place return
  `Game × Option Err`, where the returned game is the (possibly partially
  mutated) object at the moment the method returns or raises.
* Decks are `List Card` with index 0 as the top of the deck.
* Python `int` values are `Int` (pass counters, limits, ranks); counts and
  list indices that the source guards to be non-negative are `Nat`.
* `Card.rank` is an `Int`; the `Card` constructor (`cardMk`) enforces the
  range 1..13 exactly as `Rank(value)` does in Python, raising `ValueError`
  otherwise.
* Python enum members are `int`s, so `Card.__init__` accepts a `Suit` where
  a `Rank` is expected and coerces it through `Rank(value)`; `deckInitDefault`
  reproduces this faithfully for the no-argument `Deck()` constructor.
-/

deriving instance DecidableEq for Except

namespace Klondike

/-- Python exception kinds raised by the engine, with their messages. -/
inductive Err where
  | value (msg : String)
  | rules (msg : String)
  | attr (msg : String)
  | nameErr (msg : String)
  | index (msg : String)
deriving DecidableEq, Repr

/-- `Suit` from `src/sim/card.py`: clubs, diamonds, hearts, spades
(declaration order gives enum values 1,2,3,4). -/
inductive Suit where
  | clubs
  | diamonds
  | hearts
  | spades
deriving DecidableEq, Repr

instance : Inhabited Suit := ⟨Suit.clubs⟩

/-- Enum value of a suit (`IntEnum` `auto()` numbering). -/
def suitValue : Suit → Int
  | .clubs => 1
  | .diamonds => 2
  | .hearts => 3
  | .spades => 4

/-- `Suit.black`: clubs and spades are black. -/
def suitBlack : Suit → Bool
  | .clubs => true
  | .spades => true
  | _ => false

/-- `Suit.red`: diamonds and hearts are red. -/
def suitRed (s : Suit) : Bool := ¬ suitBlack s

/-- `Suit.short`. -/
def suitShort : Suit → String
  | .clubs => "C"
  | .diamonds => "D"
  | .hearts => "H"
  | .spades => "S"

/-- `Suit.name` (Python enum member name, upper case). -/
def suitName : Suit → String
  | .clubs => "CLUBS"
  | .diamonds => "DIAMONDS"
  | .hearts => "HEARTS"
  | .spades => "SPADES"

/-- Iteration order of `for s in Suit`. -/
def suitList : List Suit := [Suit.clubs, Suit.diamonds, Suit.hearts, Suit.spades]

/-- `Suit(value)`: enum lookup by value, `ValueError` when out of range. -/
def suitFromInt (v : Int) : Except Err Suit :=
  if v = 1 then .ok .clubs
  else if v = 2 then .ok .diamonds
  else if v = 3 then .ok .hearts
  else if v = 4 then .ok .spades
  else .error (.value (toString v ++ " is not a valid Suit"))

/-- `Rank(value)`: enum lookup by value, `ValueError` when out of range.
Ranks are kept as their integer value. -/
def rankFromInt (v : Int) : Except Err Int :=
  if 1 ≤ v ∧ v ≤ 13 then .ok v
  else .error (.value (toString v ++ " is not a valid Rank"))

/-- `Card` from `src/sim/card.py`: an immutable (rank, suit) pair.
`rank` is the integer value of the `Rank` enum member (1=Ace .. 13=King). -/
structure Card where
  rank : Int
  suit : Suit
deriving DecidableEq, Repr

instance : Inhabited Card := ⟨⟨1, Suit.clubs⟩⟩

/-- `Card.is_black`. -/
def Card.isBlack (c : Card) : Bool := suitBlack c.suit

/-- `Card.is_red`. -/
def Card.isRed (c : Card) : Bool := suitRed c.suit

/-- `Rank.short`. -/
def rankShort (r : Int) : String :=
  if r = 1 then "A"
  else if r < 10 then toString r
  else if r = 10 then "X"
  else if r = 11 then "J"
  else if r = 12 then "Q"
  else "K"

/-- `Card.__str__`: short rank followed by short suit. -/
def cardStr (c : Card) : String := rankShort c.rank ++ suitShort c.suit

/-- `str(x)` for an optional card; Python renders `None` as `"None"`. -/
def optCardStr : Option Card → String
  | none => "None"
  | some c => cardStr c

/-- `', '.join(...)` over card strings. -/
def joinCards (l : List Card) : String := String.intercalate ", " (l.map cardStr)

/-- `Card(rank, suit)` where `rank` is an `int`: coerces through
`Rank(rank)`, raising `ValueError` when the value is not 1..13. -/
def cardMk (r : Int) (s : Suit) : Except Err Card := do
  let rk ← rankFromInt r
  .ok ⟨rk, s⟩

/-- `Card.__init__(rank, suit)` with both arguments plain `int`s (which is
what happens when enum members of the wrong enum are passed, since
`IntEnum` members are `int`s): `self.rank = Rank(rank)` first, then
`self.suit = Suit(suit)`, each raising `ValueError` on a bad value. -/
def cardInitFromInts (rankArg suitArg : Int) : Except Err Card := do
  let rk ← rankFromInt rankArg
  let su ← suitFromInt suitArg
  .ok ⟨rk, su⟩

/-- `Card.__eq__` returns `False` whenever the other operand is not a
`Card`; comparing a `Card` against a `Rank` member therefore always
evaluates to `False` (used by `Pile.needs`). -/
def cardEqPyRank (_c : Card) (_r : Int) : Bool := false

/-- `Card.kings()`: the four kings in `for s in Suit` order. -/
def cardKings : List Card := suitList.map (fun s => ⟨13, s⟩)

/-- Rank enum values 1..13 in iteration order of `for r in Rank`. -/
def rankValues : List Int := [1, 2, 3, 4, 5, 6, 7, 8, 9, 10, 11, 12, 13]

/-- Suit enum values 1..4 in iteration order of `for s in Suit`. -/
def suitValues : List Int := [1, 2, 3, 4]

/-- Monadic map over `Except`, mirroring a Python `for` loop that stops at
the first raised exception. -/
def mapME (g : β → Except Err γ) : List β → Except Err (List γ)
  | [] => .ok []
  | b :: l => do
    let c ← g b
    let cs ← mapME g l
    .ok (c :: cs)

/-- `Deck.__init__` with `cards=None` (`src/sim/deck.py` line 19):
`[card.Card(s, r) for r in card.Rank for s in card.Suit]`.  Note the
arguments are passed in the order `(s, r)` while `Card.__init__` declares
`(rank, suit)`, so the suit member is coerced with `Rank(...)` and the rank
member with `Suit(...)`. -/
def deckInitDefault : Except Err (List Card) :=
  mapME (fun rs => cardInitFromInts rs.2 rs.1)
    (rankValues.flatMap (fun r => suitValues.map (fun s => (r, s))))

/-- `Deck.draw`: remove and return the top card. -/
def deckDraw : List Card → Except Err (Card × List Card)
  | [] => .error (.value "No cards left in the deck")
  | c :: rest => .ok (c, rest)

/-- `Deck.draw_n`: draw `n` cards (all remaining when `or_fewer`). -/
def deckDrawN (n : Nat) (orFewer : Bool) (l : List Card) :
    Except Err (List Card × List Card) :=
  if n > l.length then
    if orFewer then .ok (l, [])
    else .error (.value "Not enough cards in the deck")
  else .ok (l.take n, l.drop n)

/-- Modelled from the spec: `Deck.flip` is called by `Game.draw_stock` and
`State.accessible_stock_cards` but is not defined in `src/sim/deck.py`,
which only defines `reverse` ("Reverse the order of the cards in the
deck"); the spec lists the deck operation `reverse ("flip")`, so `flip`
reverses the deck. -/
def deckFlip (l : List Card) : List Card := l.reverse

/-- The draw loop shared by `Game.draw_stock` and the flip simulation in
`accessible_stock_cards`: repeat `n` times: stop when the stock is empty,
else draw the top stock card and insert it at the front of the waste. -/
def drawLoop : Nat → List Card → List Card → List Card × List Card
  | 0, s, w => (s, w)
  | _ + 1, [], w => ([], w)
  | n + 1, c :: s, w => drawLoop n s (c :: w)

/-- `range(0, stop, step)` for non-negative bounds; raises `ValueError`
when `step` is zero, as Python `range` does. -/
def pyRangeStep (stop step : Nat) : Except Err (List Nat) :=
  if step = 0 then .error (.value "range() arg 3 must not be zero")
  else .ok ((List.range ((stop + step - 1) / step)).map (· * step))

/-- `Foundation` from `src/sim/games/klondike.py`: one suit, cards with
index 0 on top. -/
structure Foundation where
  suit : Suit
  cards : List Card
deriving DecidableEq, Repr

instance : Inhabited Foundation := ⟨⟨Suit.clubs, []⟩⟩

/-- `Foundation.add`. -/
def foundationAdd (f : Foundation) (c : Card) : Except Err Foundation :=
  if c.suit ≠ f.suit then .error (.value "Card does not match foundation suit")
  else match f.cards with
    | top :: _ =>
      if c.rank ≠ top.rank + 1 then
        .error (.value "Card does not follow the previous card in the foundation")
      else .ok { f with cards := c :: f.cards }
    | [] =>
      if c.rank ≠ 1 then .error (.value "First card in foundation must be an Ace")
      else .ok { f with cards := [c] }

/-- `Foundation.needs`: the next required card, or `none` when complete. -/
def foundationNeeds (f : Foundation) : Except Err (Option Card) :=
  match f.cards with
  | [] => .ok (some ⟨1, f.suit⟩)
  | top :: _ =>
    if f.cards.length = 13 then .ok none
    else do
      let c ← cardMk (top.rank + 1) f.suit
      .ok (some c)

/-- `Foundation.remove` (defined in the source but never called by the
engine; `move_foundation_card` draws from the waste instead). -/
def foundationRemove (f : Foundation) : Except Err (Card × Foundation) :=
  match f.cards with
  | [] => .error (.value "Foundation is empty")
  | c :: rest => .ok (c, { f with cards := rest })

/-- `Foundation.top`. -/
def foundationTop (f : Foundation) : Option Card := f.cards.head?

/-- The foundations dictionary `{s: Foundation(s) for s in Suit}`; in every
engine-created game all four suits are present, so it is embedded as a
four-field record. -/
structure Foundations where
  clubs : Foundation
  diamonds : Foundation
  hearts : Foundation
  spades : Foundation
deriving DecidableEq, Repr

/-- `self.foundations[s]`. -/
def Foundations.get (fs : Foundations) : Suit → Foundation
  | .clubs => fs.clubs
  | .diamonds => fs.diamonds
  | .hearts => fs.hearts
  | .spades => fs.spades

/-- `self.foundations[s] = f` (in-place mutation of the dict entry). -/
def Foundations.set (fs : Foundations) (s : Suit) (f : Foundation) : Foundations :=
  match s with
  | .clubs => { fs with clubs := f }
  | .diamonds => { fs with diamonds := f }
  | .hearts => { fs with hearts := f }
  | .spades => { fs with spades := f }

/-- `self.foundations.items()` in insertion (= `Suit`) order. -/
def Foundations.items (fs : Foundations) : List (Suit × Foundation) :=
  suitList.map (fun s => (s, fs.get s))

/-- `{s: Foundation(s) for s in Suit}`. -/
def foundationsInit : Foundations :=
  ⟨⟨.clubs, []⟩, ⟨.diamonds, []⟩, ⟨.hearts, []⟩, ⟨.spades, []⟩⟩

instance : Inhabited Foundations := ⟨foundationsInit⟩

/-- `Pile`: a tableau pile, `shown` face-up (index 0 topmost) and `hidden`
face-down. -/
structure Pile where
  shown : List Card
  hidden : List Card
deriving DecidableEq, Repr

instance : Inhabited Pile := ⟨⟨[], []⟩⟩

/-- `Pile.__init__(cards)`: first card shown, rest hidden. -/
def pileInit (cards : List Card) : Pile :=
  match cards with
  | [] => ⟨[], []⟩
  | c :: rest => ⟨[c], rest⟩

/-- `Pile.empty`. -/
def pileEmpty (p : Pile) : Bool := p.shown.isEmpty && p.hidden.isEmpty

/-- `Pile.top`: the top card, self-healing by turning over the next hidden
card when `shown` is empty; returns the (possibly healed) pile. -/
def pileTop (p : Pile) : Option Card × Pile :=
  match p.shown with
  | c :: _ => (some c, p)
  | [] =>
    match p.hidden with
    | h :: ht => (some h, ⟨[h], ht⟩)
    | [] => (none, p)

/-- `Pile.take(count)`: remove the top `count` shown cards, auto-revealing
the next hidden card when `shown` empties. -/
def pileTake (p : Pile) (count : Nat) : Except Err (List Card × Pile) :=
  if count < 1 then .error (.value "Count must be at least 1")
  else if count > p.shown.length then
    .error (.value ("Cannot take " ++ toString count ++ " cards; only " ++
      toString p.shown.length ++ " cards are revealed"))
  else
    let cards := p.shown.take count
    let rest := p.shown.drop count
    if rest.isEmpty ∧ ¬ p.hidden.isEmpty then
      .ok (cards, ⟨p.hidden.take 1, p.hidden.drop 1⟩)
    else
      .ok (cards, ⟨rest, p.hidden⟩)

/-- `Pile.needs`: all cards that could be placed on top.  The source's
`self.shown[0] == Rank.ACE` comparison is `cardEqPyRank` (always false),
after which `Card(t.rank - 1, ...)` raises `ValueError` for an ace top. -/
def pileNeeds (p : Pile) : Except Err (List Card) :=
  match p.shown with
  | [] => .ok cardKings
  | c :: _ =>
    if cardEqPyRank c 1 then .ok []
    else if c.isBlack then do
      let d1 ← cardMk (c.rank - 1) .diamonds
      let d2 ← cardMk (c.rank - 1) .hearts
      .ok [d1, d2]
    else do
      let d1 ← cardMk (c.rank - 1) .clubs
      let d2 ← cardMk (c.rank - 1) .spades
      .ok [d1, d2]

/-- The run validation in `Pile.give`: every adjacent pair must alternate
color and descend in rank toward the bottom of the given stack. -/
def stackChainOk : List Card → Bool
  | [] => true
  | [_] => true
  | a :: b :: rest =>
    (a.isBlack ≠ b.isBlack && a.rank = b.rank - 1) && stackChainOk (b :: rest)

/-- `Pile.give(cards)`: validate the given run internally, then against the
pile's current top (via the self-healing `top()`), then prepend to `shown`.
Returns the pile as mutated at the moment of return or raise. -/
def pileGive (p : Pile) (cards : List Card) : Pile × Option Err :=
  match cards.getLast? with
  | none => (p, some (.index "list index out of range"))
  | some bot =>
    if ¬ stackChainOk cards then (p, some (.value "Given cards are not a valid stack"))
    else if pileEmpty p then ({ p with shown := cards ++ p.shown }, none)
    else
      let (topC, p') := pileTop p
      match topC with
      | none => (p', some (.value "Given cards are not a valid stack"))
      | some ct =>
        if bot.isBlack = ct.isBlack ∨ bot.rank ≠ ct.rank - 1 then
          (p', some (.value "Given cards are not a valid stack"))
        else ({ p' with shown := cards ++ p'.shown }, none)

/-- `LocationType`. -/
inductive LocationType where
  | tableau
  | foundation
  | waste
deriving DecidableEq, Repr

/-- The `Location` subclasses `TableauPosition(pile)`,
`FoundationPosition(suit)`, `WastePosition`, as a closed sum.  Pile indices
are `Nat`; the source's negative-index guards are subsumed by the upper
bounds checks. -/
inductive Location where
  | tableau (pile : Nat)
  | foundation (suit : Suit)
  | waste
deriving DecidableEq, Repr

/-- `Location.type`. -/
def locType : Location → LocationType
  | .tableau _ => .tableau
  | .foundation _ => .foundation
  | .waste => .waste

/-- `LocationList.has_type`. -/
def locsHasType (l : List Location) (t : LocationType) : Bool :=
  l.any (fun loc => locType loc = t)

/-- `LocationList.where(type)`. -/
def locsWhere (l : List Location) (t : LocationType) : List Location :=
  l.filter (fun loc => locType loc = t)

/-- The `Action` subclasses `DrawAction`, `MoveOneAction(source, dest)`,
`MoveTableauStackAction(source_pile, dest_pile, count)` as a closed sum.
The `isinstance` dispatch checks of `take_turn` cannot fail on a closed
sum and are omitted. -/
inductive Action where
  | draw
  | moveOne (source dest : Location)
  | moveStack (sourcePile destPile : Nat) (count : Nat)
deriving DecidableEq, Repr

/-- Whether an action is a `MoveTableauStackAction`. -/
def isStack : Action → Bool
  | .moveStack _ _ _ => true
  | _ => false

/-- Whether an action is a `MoveOneAction`. -/
def isMoveOne : Action → Bool
  | .moveOne _ _ => true
  | _ => false

/-- The sort key `(m.source_pile, m.dest_pile)` used on tableau stack
moves. -/
def sortKey : Action → Nat × Nat
  | .moveStack s d _ => (s, d)
  | _ => (0, 0)

/-- Lexicographic comparison of sort keys (Python tuple `<=`). -/
def keyLe (a b : Action) : Bool :=
  decide ((sortKey a).1 < (sortKey b).1 ∨
    ((sortKey a).1 = (sortKey b).1 ∧ (sortKey a).2 ≤ (sortKey b).2))

/-- Insert into a key-sorted list (helper for `sortMoves`). -/
def insertMove (x : Action) : List Action → List Action
  | [] => [x]
  | y :: l => if keyLe y x then y :: insertMove x l else x :: y :: l

/-- `tableau_moves.sort(key=lambda m: (m.source_pile, m.dest_pile))`:
a stable comparison sort; the emitted moves have pairwise distinct keys,
so any comparison sort produces the same list. -/
def sortMoves : List Action → List Action
  | [] => []
  | x :: l => insertMove x (sortMoves l)

/-- `State`: an owned snapshot of the whole game position. -/
structure State where
  tableau : List Pile
  foundations : Foundations
  stock : List Card
  waste : List Card
  current_stock_pass : Int
  pass_limit : Int
  draw_count : Nat
deriving DecidableEq, Repr

instance : Inhabited State := ⟨⟨[], foundationsInit, [], [], 1, 0, 0⟩⟩

/-- `Game`: the live session.  `clone()` on the Python side is deep copy;
with value semantics it is the identity, so snapshots simply copy the
fields. -/
structure Game where
  draw_count : Nat
  stock_pass_limit : Int
  current_stock_pass : Int
  tableau : List Pile
  foundations : Foundations
  stock : List Card
  waste : List Card
  history : List State
  starting_deck : List Card
  random_deck : Bool
deriving DecidableEq, Repr

/-- `Game.state`: snapshot of the live containers. -/
def gameState (g : Game) : State :=
  { tableau := g.tableau
    foundations := g.foundations
    stock := g.stock
    waste := g.waste
    current_stock_pass := g.current_stock_pass
    pass_limit := g.stock_pass_limit
    draw_count := g.draw_count }

/-- `self.history.append(self.state)`, the closing step of every
successful mutation. -/
def historyAppend (g : Game) : Game :=
  { g with history := g.history ++ [gameState g] }

/-- `Game.draw_stock`.  When the stock is empty: require a non-empty waste
and an unexhausted pass limit, then flip the waste into the stock and
reset the waste.  Then move up to `draw_count` cards from the stock to the
front of the waste. -/
def drawStock (g : Game) : Game × Option Err :=
  if g.stock.isEmpty then
    if g.waste.isEmpty then
      (g, some (.rules "Stock and waste piles are empty"))
    else if g.stock_pass_limit > 0 ∧ g.current_stock_pass ≥ g.stock_pass_limit then
      (g, some (.rules ("Already did " ++ toString g.current_stock_pass ++
        " stock pass" ++ (if g.current_stock_pass = 1 then "" else "es") ++
        " this game")))
    else
      let g1 : Game := { g with
        stock := deckFlip g.waste
        current_stock_pass := g.current_stock_pass + 1
        waste := [] }
      let sw := drawLoop g1.draw_count g1.stock g1.waste
      (historyAppend { g1 with stock := sw.1, waste := sw.2 }, none)
  else
    let sw := drawLoop g.draw_count g.stock g.waste
    (historyAppend { g with stock := sw.1, waste := sw.2 }, none)

/-- `Game.move_tableau_stack`. -/
def moveTableauStack (g : Game) (source_pile dest_pile : Nat) (count : Nat) :
    Game × Option Err :=
  if source_pile ≥ g.tableau.length then
    (g, some (.value "Invalid source tableau pile"))
  else if dest_pile ≥ g.tableau.length then
    (g, some (.value "Invalid destination tableau pile"))
  else if count < 1 then
    (g, some (.value "Stack must have count of at least 1"))
  else
    let source := g.tableau.getD source_pile default
    let dest := g.tableau.getD dest_pile default
    if count > source.shown.length then
      (g, some (.rules "Cannot move more cards than are shown in the source pile"))
    else
      let cur_bot := source.shown.getD (count - 1) default
      match pileNeeds dest with
      | .error e => (g, some e)
      | .ok next_needed =>
        if cur_bot ∉ next_needed then
          (g, some (.rules ("Cannot move stack with bottom card " ++ cardStr cur_bot ++
            " to tableau[" ++ toString dest_pile ++ "]; legal cards are " ++
            joinCards next_needed)))
        else
          match pileTake source count with
          | .error e => (g, some e)
          | .ok (cards, source') =>
            let g1 := { g with tableau := g.tableau.set source_pile source' }
            let gv := pileGive (g1.tableau.getD dest_pile default) cards
            let g2 := { g1 with tableau := g1.tableau.set dest_pile gv.1 }
            match gv.2 with
            | some e => (g2, some e)
            | none => (historyAppend g2, none)

/-- `Game.move_tableau_card(source_pile, dest)`: a single card from a
tableau pile; only a foundation destination is legal. -/
def moveTableauCard (g : Game) (source_pile : Nat) (dest : Location) :
    Game × Option Err :=
  match dest with
  | .tableau _ => (g, some (.rules "Use move_tableau_stack to move cards to tableau"))
  | .waste => (g, some (.rules "Cannot move cards to waste pile"))
  | .foundation fsuit =>
    if source_pile ≥ g.tableau.length then
      (g, some (.value "Invalid source tableau pile"))
    else
      let t := g.tableau.getD source_pile default
      let tc := pileTop t
      let g1 := { g with tableau := g.tableau.set source_pile tc.2 }
      let f := g1.foundations.get fsuit
      match foundationNeeds f with
      | .error e => (g1, some e)
      | .ok expected =>
        if tc.1 ≠ expected then
          (g1, some (.rules ("Cannot add " ++ optCardStr tc.1 ++ " to " ++
            suitName fsuit ++ " foundation pile; legal cards are " ++
            optCardStr expected)))
        else
          match pileTake tc.2 1 with
          | .error e => (g1, some e)
          | .ok (cs, t') =>
            let g2 := { g1 with tableau := g1.tableau.set source_pile t' }
            match foundationAdd f (cs.getD 0 default) with
            | .error e => (g2, some e)
            | .ok f' => (historyAppend { g2 with foundations := g2.foundations.set fsuit f' }, none)

/-- Membership test `card in needs` where `card` is `self.waste.top` or a
foundation top and may be `None` (Python: `None` equals no `Card`). -/
def optMemCard (c : Option Card) (l : List Card) : Bool :=
  match c with
  | none => false
  | some c => c ∈ l

/-- `Game.move_waste_card(dest)`. -/
def moveWasteCard (g : Game) (dest : Location) : Game × Option Err :=
  match dest with
  | .tableau tpile =>
    if tpile ≥ g.tableau.length then
      (g, some (.rules ("Invalid destination tableau pile; legal piles are 0 through " ++
        toString (g.tableau.length - 1))))
    else
      let t := g.tableau.getD tpile default
      let card := g.waste.head?
      match pileNeeds t with
      | .error e => (g, some e)
      | .ok needs =>
        if ¬ optMemCard card needs then
          (g, some (.rules ("Cannot add " ++ optCardStr card ++ " to tableau[" ++
            toString tpile ++ "]; legal cards are " ++ joinCards needs)))
        else
          match g.waste with
          | [] => (g, some (.value "No cards left in the deck"))
          | c :: wrest =>
            let g1 := { g with waste := wrest }
            let gv := pileGive t [c]
            let g2 := { g1 with tableau := g1.tableau.set tpile gv.1 }
            match gv.2 with
            | some e => (g2, some e)
            | none => (historyAppend g2, none)
  | .foundation fsuit =>
    let card := g.waste.head?
    let f := g.foundations.get fsuit
    (match foundationNeeds f with
    | .error e => (g, some e)
    | .ok expected =>
      if card ≠ expected then
        (g, some (.rules ("Cannot add " ++ optCardStr card ++ " to " ++
          suitName fsuit ++ " foundation pile; legal cards are " ++
          optCardStr expected)))
      else
        match g.waste with
        | [] => (g, some (.value "No cards left in the deck"))
        | c :: wrest =>
          let g1 := { g with waste := wrest }
          match foundationAdd f c with
          | .error e => (g1, some e)
          | .ok f' => (historyAppend { g1 with foundations := g1.foundations.set fsuit f' }, none))
  | .waste =>
    (g, some (.rules "Waste pile cards may only be moved to a tableau or foundation pile"))

/-- `Game.move_foundation_card(suit, dest)`.  Note the source draws the
card to place from the waste (`self.waste.draw()`), not from the
foundation. -/
def moveFoundationCard (g : Game) (suit : Suit) (dest : Location) :
    Game × Option Err :=
  match dest with
  | .tableau tpile =>
    if tpile ≥ g.tableau.length then
      (g, some (.rules ("Invalid destination tableau pile; legal piles are 0 through " ++
        toString (g.tableau.length - 1))))
    else
      let t := g.tableau.getD tpile default
      let card := foundationTop (g.foundations.get suit)
      match pileNeeds t with
      | .error e => (g, some e)
      | .ok needs =>
        if ¬ optMemCard card needs then
          (g, some (.rules ("Cannot add " ++ optCardStr card ++ " to tableau[" ++
            toString tpile ++ "]; legal cards are " ++ joinCards needs)))
        else
          match g.waste with
          | [] => (g, some (.value "No cards left in the deck"))
          | c :: wrest =>
            let g1 := { g with waste := wrest }
            let gv := pileGive t [c]
            let g2 := { g1 with tableau := g1.tableau.set tpile gv.1 }
            match gv.2 with
            | some e => (g2, some e)
            | none => (historyAppend g2, none)
  | .waste => (g, some (.rules "Cannot move cards from foundation to waste"))
  | .foundation _ => (g, some (.rules "Cannot move cards from foundation to foundation"))

/-- `Game.take_turn(player, action)`. -/
def takeTurn (g : Game) (player : Int) (action : Action) : Game × Option Err :=
  if player ≠ 0 then
    (g, some (.rules "Klondike Solitaire is a single-player game; player index must be 0"))
  else
    match action with
    | .draw => drawStock g
    | .moveStack sp dp count => moveTableauStack g sp dp count
    | .moveOne source dest =>
      match source with
      | .tableau pile => moveTableauCard g pile dest
      | .waste => moveWasteCard g dest
      | .foundation suit => moveFoundationCard g suit dest

/-- `Game.undo`: pop the last snapshot and restore all live containers
from the new last snapshot. -/
def undo (g : Game) : Game × Option Err :=
  if g.history.length < 2 then
    (g, some (.rules "At start of game; nothing to undo"))
  else
    let h := g.history.dropLast
    let last := h.getLastD default
    ({ g with
        history := h
        tableau := last.tableau
        foundations := last.foundations
        waste := last.waste
        stock := last.stock
        current_stock_pass := last.current_stock_pass }, none)

/-- The tableau deal loop of `Game.__init__`: pile `i` receives `i+1`
cards drawn from the stock, reversed, first card face-up. -/
def dealLoop : Nat → Nat → List Card → Except Err (List Pile × List Card)
  | 0, _, stock => .ok ([], stock)
  | k + 1, i, stock => do
    let dr ← deckDrawN (i + 1) false stock
    let rest ← dealLoop k (i + 1) dr.2
    .ok (pileInit dr.1.reverse :: rest.1, rest.2)

/-- `Game.__init__` once a concrete deck is available. -/
def gameInitDeck (draw_count : Nat) (stock_pass_limit : Int) (cards : List Card)
    (random_deck : Bool) (num_piles : Nat) : Except Err Game := do
  let dealt ← dealLoop num_piles 0 cards
  let g : Game :=
    { draw_count := draw_count
      stock_pass_limit := stock_pass_limit
      current_stock_pass := 1
      tableau := dealt.1
      foundations := foundationsInit
      stock := dealt.2
      waste := []
      history := []
      starting_deck := cards
      random_deck := random_deck }
  .ok (historyAppend g)

/-- `Game.__init__(draw_count, stock_pass_limit, deck, num_piles)`.  With
`deck=None` the source calls `Deck()` (which raises, see
`deckInitDefault`) and would then shuffle; the shuffle is unreachable and
not modelled. -/
def gameInit (draw_count : Nat) (stock_pass_limit : Int) (deck : Option (List Card))
    (num_piles : Nat) : Except Err Game :=
  match deck with
  | none => do
    let cards ← deckInitDefault
    gameInitDeck draw_count stock_pass_limit cards true num_piles
  | some cards => gameInitDeck draw_count stock_pass_limit cards false num_piles

/-- `Game.state_with_turn_applied(action)`: apply, snapshot, undo. -/
def stateWithTurnApplied (g : Game) (action : Action) : Except Err State :=
  match takeTurn g 0 action with
  | (_, some e) => .error e
  | (g', none) =>
    match undo g' with
    | (_, some e) => .error e
    | (_, none) => .ok (gameState g')

/-- `State.remaining_stock_flips`. -/
def remainingStockFlips (s : State) : Int :=
  if s.pass_limit > 0 then s.pass_limit - s.current_stock_pass else -1

/-- `State.accessible_stock_cards`: the stock/waste cards the player could
currently access (waste top; draw-boundary stock cards after at least one
pass; and, when a flip is still allowed, the boundary cards of the
simulated flipped waste). -/
def accessibleStockCards (s : State) : Except Err (List Card) := do
  let acc0 : List Card :=
    match s.waste.head? with
    | some c => [c]
    | none => []
  let acc1 ←
    if s.stock.length > 0 ∧ s.current_stock_pass > 1 then do
      let idxs ← pyRangeStep s.stock.length s.draw_count
      .ok (acc0 ++ idxs.map (fun i =>
        let idx := min (i + s.draw_count - 1) (s.stock.length - 1)
        s.stock.getD idx default))
    else .ok acc0
  if s.waste.length ≥ s.draw_count ∧ (s.pass_limit < 1 ∨ remainingStockFlips s > 0) then do
    let original_top := s.waste.length - 1
    let shifted ←
      if s.draw_count = 0 then
        Except.error (Err.value "integer division or modulo by zero")
      else .ok (decide (s.waste.length % s.draw_count ≠ 0))
    let next_waste :=
      if shifted ∧ s.current_stock_pass > 1 ∧ s.stock.length > 0 then
        (drawLoop s.draw_count s.stock s.waste).2
      else s.waste
    let next_stock := deckFlip next_waste
    let idxs ← pyRangeStep (next_stock.length - s.draw_count) s.draw_count
    let extra := idxs.filterMap (fun i =>
      let idx := i + s.draw_count - 1
      if idx = original_top then none
      else some (next_stock.getD idx default))
    .ok (acc1 ++ extra)
  else .ok acc1

/-- `State.tableau_from_location` (the returned pile is a clone; with
value semantics the copy is the pile itself). -/
def tableauFromLocation (s : State) (pile : Nat) : Except Err Pile :=
  if pile ≥ s.tableau.length then
    .error (.value ("No tableau pile at index " ++ toString pile))
  else .ok (s.tableau.getD pile default)

/-- `State.top_of(loc)`: the top card at a location.  For a tableau pile
the source heals a clone, leaving the state untouched. -/
def topOf (s : State) (loc : Location) : Except Err (Option Card) :=
  match loc with
  | .tableau i => do
    let t ← tableauFromLocation s i
    .ok (pileTop t).1
  | .foundation su => .ok (foundationTop (s.foundations.get su))
  | .waste => .ok s.waste.head?

/-- `State.playable_destinations(c)` where `c` may be `None` (which can
flow in from `.top()` calls): `None == f.needs()` is true exactly when the
foundation is complete, and `None in t.needs()` is always false. -/
def playableDestinationsO (s : State) (c : Option Card) : Except Err (List Location) := do
  let fparts ← mapME (fun su => do
      let nd ← foundationNeeds (s.foundations.get su)
      .ok (if c = nd then [Location.foundation su] else []))
    suitList
  let tparts ← mapME (fun i => do
      let nds ← pileNeeds (s.tableau.getD i default)
      .ok (if optMemCard c nds then [Location.tableau i] else []))
    (List.range s.tableau.length)
  .ok (fparts.flatten ++ tparts.flatten)

/-- Card colors. -/
inductive Color where
  | black
  | red
deriving DecidableEq, Repr

/-- `Card.color()`. -/
def cardColor (c : Card) : Color := if c.isBlack then .black else .red

/-- The filter predicate shared by `CardList.where` and
`find_playable_singles`: with no filters given everything matches. -/
def condCard (colorF : Option Color) (suitF : Option Suit) (rankF : Option Int)
    (c : Card) : Bool :=
  if colorF = none ∧ suitF = none ∧ rankF = none then true
  else
    (match colorF with
     | some col => cardColor c = col
     | none => true) &&
    (match suitF with
     | some su => c.suit = su
     | none => true) &&
    (match rankF with
     | some r => c.rank = r
     | none => true)

/-- `CardList.where(color=..., suit=..., rank=...)`. -/
def cardListWhere (l : List Card) (colorF : Option Color) (suitF : Option Suit)
    (rankF : Option Int) : List Card :=
  l.filter (condCard colorF suitF rankF)

/-- `State.find_playable_singles`: locations whose top card matches the
filters, drawn from foundations, tableau piles, and the waste top as
enabled. -/
def findPlayableSingles (s : State) (colorF : Option Color) (suitF : Option Suit)
    (rankF : Option Int) (inFoundations inTableau inWaste : Bool) :
    Except Err (List Location) := do
  let locs : List Location :=
    (if inFoundations then suitList.map Location.foundation else []) ++
    (if inTableau then (List.range s.tableau.length).map Location.tableau else []) ++
    (if inWaste then [Location.waste] else [])
  let parts ← mapME (fun loc => do
      let cO ← topOf s loc
      .ok (match cO with
        | some c => if condCard colorF suitF rankF c then [loc] else []
        | none => []))
    locs
  .ok parts.flatten

/-- `State.after(action)`: builds a scratch `Game` with `deck=None` (so
`Game.__init__` calls the raising `Deck()` constructor), overwrites its
containers with clones of this state, and replays the action.  With the
source's `Deck()` bug this always raises `ValueError` at `gameInit`. -/
def stateAfter (s : State) (action : Action) : Except Err State := do
  let g ← gameInit s.draw_count s.pass_limit none s.tableau.length
  let g1 := { g with
    tableau := s.tableau
    foundations := s.foundations
    waste := s.waste
    stock := s.stock
    current_stock_pass := s.current_stock_pass }
  stateWithTurnApplied g1 action

/-- `State.meaningfully_increases_dests_for(c, where_dest_type,
playable_from_prior)`.  The argument may be a single card or a list of
cards; when a list is passed, `playable_destinations(c)` compares the
list itself against needed cards and never matches (Python `==`/`in`
against `Card` values), so the destination list is empty. -/
def meaningfullyIncreases (s : State) (c : Sum Card (List Card))
    (whereDest : Option LocationType) (playableFromPrior : Bool) :
    Except Err Bool := do
  let pd0 ←
    match c with
    | .inl card => playableDestinationsO s (some card)
    | .inr _ => .ok []
  let pd :=
    match whereDest with
    | some t => locsWhere pd0 t
    | none => pd0
  let playable_to_count : Int := pd.length
  let cards : List Card :=
    match c with
    | .inl card => [card]
    | .inr l => l
  let counts ← mapME (fun card => do
      let fps ← findPlayableSingles s (some (cardColor card)) none (some card.rank)
        true true false
      let acc ← accessibleStockCards s
      .ok ((fps.length : Int) +
        ((cardListWhere acc (some (cardColor card)) none (some card.rank)).length : Int)))
    cards
  let playable_count : Int :=
    counts.foldl (· + ·) 0 - (if playableFromPrior then 1 else 0)
  .ok (playable_to_count ≤ playable_count)

/-- `MoveTableauStackAction.splits_stack(state)`. -/
def splitsStack (s : State) (a : Action) : Except Err Bool :=
  match a with
  | .moveStack sp _ count =>
    match s.tableau.get? sp with
    | none => .error (.index "list index out of range")
    | some p => .ok (p.shown.length > count)
  | _ => .error (.value "splits_stack requires a stack move")

/-- The inner scan of the stack-move generator: index of the first shown
card contained in the destination's needed cards (`for card_idx, candidate
in enumerate(source.shown): ... break`). -/
def scanShown (bots : List Card) : List Card → Option Nat
  | [] => none
  | c :: rest =>
    if c ∈ bots then some 0 else (scanShown bots rest).map (· + 1)

/-- The moves contributed to destination pile `j` by every other source
pile: the first shown card of the source contained in `bots` yields one
stack move of that depth. -/
def stackMovesInner (s : State) (j : Nat) (bots : List Card) : List Action :=
  (List.range s.tableau.length).filterMap (fun i =>
    if i = j then none
    else
      (scanShown bots ((s.tableau.getD i default).shown)).map
        (fun k => Action.moveStack i j (k + 1)))

/-- The tableau-stack section of `legal_moves`, before sorting: iterate
destinations, compute `dest.needs()`, and scan every other pile. -/
def stackSection (s : State) : Except Err (List Action) := do
  let parts ← mapME (fun j => do
      let bots ← pileNeeds (s.tableau.getD j default)
      .ok (stackMovesInner s j bots))
    (List.range s.tableau.length)
  .ok parts.flatten

/-- The draw section of `legal_moves`. -/
def drawSection (s : State) : List Action :=
  if s.stock.length > 0 ∨ (s.waste.length > 0 ∧
      (s.pass_limit < 1 ∨ s.current_stock_pass < s.pass_limit)) then
    [Action.draw]
  else []

/-- The waste section of `legal_moves`: waste top to each accepting
tableau pile, then to each accepting foundation. -/
def wasteSection (s : State) : Except Err (List Action) :=
  match s.waste.head? with
  | none => .ok []
  | some card => do
    let tparts ← mapME (fun i => do
        let nds ← pileNeeds (s.tableau.getD i default)
        .ok (if card ∈ nds then [Action.moveOne .waste (.tableau i)] else []))
      (List.range s.tableau.length)
    let fparts ← mapME (fun su => do
        let nd ← foundationNeeds (s.foundations.get su)
        .ok (if nd = some card then [Action.moveOne .waste (.foundation su)] else []))
      suitList
    .ok (tparts.flatten ++ fparts.flatten)

/-- The tableau-to-foundation single-card section of `legal_moves`. -/
def singlesSection (s : State) : Except Err (List Action) := do
  let parts ← mapME (fun idx => do
      match (s.tableau.getD idx default).shown with
      | [] => .ok []
      | c :: _ => do
        let inner ← mapME (fun su => do
            let nd ← foundationNeeds (s.foundations.get su)
            .ok (if nd = some c then [Action.moveOne (.tableau idx) (.foundation su)] else []))
          suitList
        .ok inner.flatten)
    (List.range s.tableau.length)
  .ok parts.flatten

/-- The foundation-to-tableau section of `legal_moves`. -/
def foundationSection (s : State) : Except Err (List Action) := do
  let parts ← mapME (fun su => do
      match (s.foundations.get su).cards with
      | [] => .ok []
      | card :: _ => do
        let inner ← mapME (fun i => do
            let nds ← pileNeeds (s.tableau.getD i default)
            .ok (if card ∈ nds then [Action.moveOne (.foundation su) (.tableau i)] else []))
          (List.range s.tableau.length)
        .ok inner.flatten)
    suitList
  .ok parts.flatten

/-- `State.legal_moves()`: draw, waste moves, tableau-to-foundation
singles, sorted tableau stack moves, foundation-to-tableau moves, in that
order. -/
def legalMoves (s : State) : Except Err (List Action) := do
  let w ← wasteSection s
  let sg ← singlesSection s
  let st ← stackSection s
  let f ← foundationSection s
  .ok (drawSection s ++ w ++ sg ++ sortMoves st ++ f)

/-- Monadic filter over `Except`, mirroring a Python list comprehension
whose predicate may raise. -/
def filterME (g : β → Except Err Bool) : List β → Except Err (List β)
  | [] => .ok []
  | b :: l => do
    let keep ← g b
    let rest ← filterME g l
    .ok (if keep then b :: rest else rest)

/-- Reading the leaked loop variable `moved_card` inside the
`has_useful_moves` loops: unbound when the foundation loop never ran
(`NameError`), and `AttributeError` when it was bound to `None` and its
`.rank` is accessed. -/
def movedCardGet : Option (Option Card) → Except Err Card
  | none => .error (.nameErr "name moved_card is not defined")
  | some none => .error (.attr "NoneType object has no attribute rank")
  | some (some c) => .ok c

/-- Source type filter `m.source.type == LocationType.FOUNDATION`. -/
def isFromFoundation : Action → Bool
  | .moveOne (.foundation _) _ => true
  | _ => false

/-- Filter `m.source.type == TABLEAU and m.dest.type == FOUNDATION`. -/
def isTabToFoundation : Action → Bool
  | .moveOne (.tableau _) (.foundation _) => true
  | _ => false

/-- The foundation-moves loop of `has_useful_moves`.  Returns the useful
flag and the final binding of the loop variable `moved_card`, which later
loops read. -/
def usefulLoopFoundation (s : State) :
    List Action → Option (Option Card) → Except Err (Bool × Option (Option Card))
  | [], mc => .ok (false, mc)
  | m :: rest, _mc =>
    match m with
    | .moveOne (.foundation su) dst =>
      let f := s.foundations.get su
      let moved := foundationTop f
      let mc' : Option (Option Card) := some moved
      (match dst with
      | .tableau _ =>
        (match moved with
        | none => .error (.attr "NoneType object has no attribute rank")
        | some mcard =>
          if mcard.rank ≠ 1 then do
            let stA ← stateAfter s m
            let revealed := foundationTop (stA.foundations.get su)
            let pd ← playableDestinationsO stA revealed
            if locsHasType pd .tableau then .ok (true, mc')
            else do
              let opp ← cardMk (mcard.rank - 1)
                (if suitRed mcard.suit then .clubs else .diamonds)
              let b ← meaningfullyIncreases stA (.inl opp) none false
              if b then .ok (true, mc') else usefulLoopFoundation s rest mc'
          else usefulLoopFoundation s rest mc')
      | _ => usefulLoopFoundation s rest mc')
    | _ => .error (.value "Location must be a foundation")

/-- The tableau-to-foundation loop of `has_useful_moves`. -/
def usefulLoopTabFoundation (s : State) :
    List Action → Option (Option Card) → Except Err Bool
  | [], _ => .ok false
  | m :: rest, mc =>
    match m with
    | .moveOne (.tableau tp) _ => do
      let t ← tableauFromLocation s tp
      if t.hidden.length > 0 ∧ t.shown.length = 1 then .ok true
      else do
        let stA ← stateAfter s m
        let r ←
          if t.shown.length > 1 then do
            let revealed := t.shown.getD 1 default
            let pd ← playableDestinationsO stA (some revealed)
            if locsHasType pd .foundation then .ok true
            else if (¬ t.hidden.length = 0 ∨ ¬ revealed.rank = 13) ∧
                locsHasType pd .tableau then .ok true
            else do
              let mcard ← movedCardGet mc
              let opp ← cardMk (mcard.rank - 1)
                (if suitRed mcard.suit then .clubs else .diamonds)
              meaningfullyIncreases stA (.inl opp) none false
          else .ok false
        if r then .ok true
        else
          match (pileTop t).1 with
          | none => .error (.attr "NoneType object has no attribute rank")
          | some tcard => do
            let nextC ← cardMk (tcard.rank + 1) tcard.suit
            let b ← meaningfullyIncreases stA (.inl nextC) (some .foundation) false
            if b then .ok true else usefulLoopTabFoundation s rest mc
    | _ => .error (.value "Location must be a tableau pile")

/-- The full-stack-moves loop of `has_useful_moves`. -/
def usefulLoopFullStack (s : State) : List Action → Except Err Bool
  | [] => .ok false
  | m :: rest =>
    match m with
    | .moveStack sp _ _ => do
      let t ← tableauFromLocation s sp
      let stA ← stateAfter s m
      if t.hidden.length > 0 then .ok true
      else
        match (pileTop t).1 with
        | none => .error (.attr "NoneType object has no attribute rank")
        | some tcard =>
          if tcard.rank ≠ 13 then do
            let b ← meaningfullyIncreases stA (.inr cardKings) none false
            if b then .ok true else usefulLoopFullStack s rest
          else usefulLoopFullStack s rest
    | _ => .error (.value "Location must be a tableau pile")

/-- The split-stack-moves loop of `has_useful_moves`. -/
def usefulLoopSplitStack (s : State) :
    List Action → Option (Option Card) → Except Err Bool
  | [], _ => .ok false
  | m :: rest, mc =>
    match m with
    | .moveStack sp _ _ => do
      let _t ← tableauFromLocation s sp
      let stA ← stateAfter s m
      let tA ← tableauFromLocation stA sp
      let revealedO := (pileTop tA).1
      let mcard ← movedCardGet mc
      let opp ← cardMk (mcard.rank - 1)
        (if suitRed mcard.suit then .clubs else .diamonds)
      let b ← meaningfullyIncreases stA (.inl opp) none true
      if b then .ok true
      else do
        let pd ← playableDestinationsO stA revealedO
        if locsHasType pd .foundation then .ok true
        else do
          let c1 ←
            if tA.hidden.length ≠ 0 then .ok true
            else
              match revealedO with
              | none => Except.error (Err.attr "NoneType object has no attribute rank")
              | some rc => .ok (decide (rc.rank ≠ 13))
          if c1 ∧ locsHasType pd .tableau then .ok true
          else usefulLoopSplitStack s rest mc
    | _ => .error (.value "Location must be a tableau pile")

/-- The accessible-stock-cards loop of `has_useful_moves`. -/
def usefulLoopStock (s : State) : List Card → Except Err Bool
  | [] => .ok false
  | c :: rest => do
    let pd ← playableDestinationsO s (some c)
    if pd.length > 0 then .ok true else usefulLoopStock s rest

/-- `State.has_useful_moves()`: `none` (undetermined) unless the stock has
been cycled or is empty with a pass limit other than 1; otherwise the
usefulness analysis over all legal moves. -/
def hasUsefulMoves (s : State) : Except Err (Option Bool) :=
  if ¬ (s.current_stock_pass > 1 ∨ (s.stock.length = 0 ∧ s.pass_limit ≠ 1)) then
    .ok none
  else do
    let moves ← legalMoves s
    if moves.length = 0 then .ok (some false)
    else do
      let single_card_moves := moves.filter isMoveOne
      let stack_moves := moves.filter isStack
      let from_foundation_moves := single_card_moves.filter isFromFoundation
      let tableau_to_foundation_moves := single_card_moves.filter isTabToFoundation
      let full_stack_moves ← filterME (fun m => do
          let b ← splitsStack s m
          .ok (!b)) stack_moves
      let split_stack_moves ← filterME (splitsStack s) stack_moves
      let r1 ← usefulLoopFoundation s from_foundation_moves none
      if r1.1 then .ok (some true)
      else do
        let b2 ← usefulLoopTabFoundation s tableau_to_foundation_moves r1.2
        if b2 then .ok (some true)
        else do
          let b3 ← usefulLoopFullStack s full_stack_moves
          if b3 then .ok (some true)
          else do
            let b4 ← usefulLoopSplitStack s split_stack_moves r1.2
            if b4 then .ok (some true)
            else do
              let acc ← accessibleStockCards s
              let b5 ← usefulLoopStock s acc
              .ok (some b5)

/-- Whether an embedded Python computation returned normally. -/
def exceptIsOk : Except Err α → Bool
  | .ok _ => true
  | .error _ => false

/-- The stack-move generator's view of `dest.needs()`: the value when the
computation succeeds, `[]` when it raises. -/
def pileNeedsD (p : Pile) : List Card :=
  match pileNeeds p with
  | .ok l => l
  | .error _ => []

/-- Depth of the first shown card of pile `i` that pile `j` needs: the
count emitted for the ordered pair `(i, j)` by the stack-move generator. -/
def firstDepth (s : State) (i j : Nat) : Option Nat :=
  (scanShown (pileNeedsD (s.tableau.getD j default)) ((s.tableau.getD i default).shown)).map
    (fun k => k + 1)

/-- The value of `Foundation.needs` when it succeeds, `none` when it
raises. -/
def foundationNeedsD (f : Foundation) : Option Card :=
  match foundationNeeds f with
  | .ok r => r
  | .error _ => none

/-- The value computed by the waste section of `legal_moves` when every
`needs()` call succeeds. -/
def wasteVal (s : State) : List Action :=
  match s.waste.head? with
  | none => []
  | some card =>
    ((List.range s.tableau.length).map (fun i =>
      if card ∈ pileNeedsD (s.tableau.getD i default) then
        [Action.moveOne .waste (.tableau i)] else [])).flatten ++
    (suitList.map (fun su =>
      if foundationNeedsD (s.foundations.get su) = some card then
        [Action.moveOne .waste (.foundation su)] else [])).flatten

/-- The value computed by the tableau-to-foundation section of
`legal_moves` when every `needs()` call succeeds. -/
def singlesVal (s : State) : List Action :=
  ((List.range s.tableau.length).map (fun idx =>
    match (s.tableau.getD idx default).shown with
    | [] => []
    | c :: _ =>
      (suitList.map (fun su =>
        if foundationNeedsD (s.foundations.get su) = some c then
          [Action.moveOne (.tableau idx) (.foundation su)] else [])).flatten)).flatten

/-- The value computed by the stack section of `legal_moves` (before
sorting) when every `needs()` call succeeds. -/
def stackVal (s : State) : List Action :=
  ((List.range s.tableau.length).map (fun j =>
    stackMovesInner s j (pileNeedsD (s.tableau.getD j default)))).flatten

/-- The value computed by the foundation-to-tableau section of
`legal_moves` when every `needs()` call succeeds. -/
def foundationVal (s : State) : List Action :=
  (suitList.map (fun su =>
    match (s.foundations.get su).cards with
    | [] => []
    | card :: _ =>
      ((List.range s.tableau.length).map (fun i =>
        if card ∈ pileNeedsD (s.tableau.getD i default) then
          [Action.moveOne (.foundation su) (.tableau i)] else [])).flatten)).flatten

/-! ## Concrete states and games used by the claim theorems -/

/-- The `accessible_stock_cards` example state with `current_pass = 2`. -/
def stateC5pass2 : State :=
  { tableau := []
    foundations := foundationsInit
    stock := [⟨7, .clubs⟩, ⟨8, .clubs⟩, ⟨9, .clubs⟩]
    waste := [⟨1, .clubs⟩, ⟨2, .clubs⟩, ⟨3, .clubs⟩, ⟨5, .clubs⟩, ⟨6, .clubs⟩]
    current_stock_pass := 2
    pass_limit := 0
    draw_count := 3 }

/-- The concrete state for the C9 witness: pass 1 with pass limit 1. -/
def stateC9 : State :=
  { tableau := [⟨[⟨3, .clubs⟩], [⟨4, .clubs⟩]⟩]
    foundations := foundationsInit
    stock := [⟨7, .clubs⟩]
    waste := [⟨6, .clubs⟩]
    current_stock_pass := 1
    pass_limit := 1
    draw_count := 1 }

/-- A game where the hearts foundation top (2H) fits tableau pile 0 (top
3C) but the waste top (KD) does not: `move_foundation_card` pops the waste
before `give` validates, so the failing turn mutates the waste. -/
def gameC3 : Game :=
  { draw_count := 1
    stock_pass_limit := 0
    current_stock_pass := 1
    tableau := [⟨[⟨3, .clubs⟩], []⟩]
    foundations := foundationsInit.set .hearts ⟨.hearts, [⟨2, .hearts⟩, ⟨1, .hearts⟩]⟩
    stock := []
    waste := [⟨13, .diamonds⟩]
    history := []
    starting_deck := []
    random_deck := false }

/-- A game where the hearts foundation top (2H) fits tableau pile 0 (top
3C) and the waste top (2D) happens to fit as well. -/
def gameC8 : Game :=
  { draw_count := 1
    stock_pass_limit := 0
    current_stock_pass := 1
    tableau := [⟨[⟨3, .clubs⟩], []⟩]
    foundations := foundationsInit.set .hearts ⟨.hearts, [⟨2, .hearts⟩, ⟨1, .hearts⟩]⟩
    stock := []
    waste := [⟨2, .diamonds⟩]
    history := []
    starting_deck := []
    random_deck := false }

/-- The concrete game for the C2 witness: empty stock, waste [AC, 2C, 3C],
draw count 2, unlimited passes. -/
def gameC2 : Game :=
  { draw_count := 2
    stock_pass_limit := 0
    current_stock_pass := 1
    tableau := []
    foundations := foundationsInit
    stock := []
    waste := [⟨1, .clubs⟩, ⟨2, .clubs⟩, ⟨3, .clubs⟩]
    history := []
    starting_deck := []
    random_deck := false }

/-- The shape of the history-append conclusion shared by the per-mutator
lemmas below. -/
def turnAppends (g g' : Game) : Prop :=
  g'.history = g.history ++ [gameState g'] ∧
  g'.stock_pass_limit = g.stock_pass_limit ∧
  g'.draw_count = g.draw_count

/-- Base fields of the C4 witness game. -/
def gameC4base : Game :=
  { draw_count := 1
    stock_pass_limit := 0
    current_stock_pass := 1
    tableau := [⟨[⟨3, .clubs⟩], [⟨9, .hearts⟩]⟩]
    foundations := foundationsInit
    stock := [⟨5, .hearts⟩]
    waste := []
    history := []
    starting_deck := []
    random_deck := false }

/-- The C4 witness game, carrying its own state as the history. -/
def gameC4 : Game := { gameC4base with history := [gameState gameC4base] }

/-- The concrete state refuting C7 as universally stated: pile 0 has an
Ace as its top shown card, so `legal_moves()` raises `ValueError` instead
of returning a move list. -/
def stateC7ace : State :=
  { tableau := [⟨[⟨1, .clubs⟩], []⟩, ⟨[⟨6, .spades⟩], []⟩]
    foundations := foundationsInit
    stock := [⟨2, .clubs⟩]
    waste := []
    current_stock_pass := 1
    pass_limit := 0
    draw_count := 1 }

/-- The concrete state for the C7 witness: 5H on pile 0 can move onto 6S
on pile 1. -/
def stateC7w : State :=
  { tableau := [⟨[⟨5, .hearts⟩], []⟩, ⟨[⟨6, .spades⟩], [⟨9, .diamonds⟩]⟩]
    foundations := foundationsInit
    stock := [⟨2, .clubs⟩]
    waste := []
    current_stock_pass := 1
    pass_limit := 0
    draw_count := 1 }

/-! ## Helper lemmas -/

theorem ok_bind (a : α) (f : α → Except Err β) : (Except.ok a >>= f) = f a := rfl

theorem mapME_ok (l : List β) (g : β → Except Err γ) (g' : β → γ)
    (h : ∀ b ∈ l, g b = .ok (g' b)) : mapME g l = .ok (l.map g') := by
  induction l with
  | nil => rfl
  | cons b l ih =>
    have hb := h b (List.mem_cons_self b l)
    have hrest := ih (fun x hx => h x (List.mem_cons_of_mem b hx))
    simp [mapME, hb, hrest, ok_bind]

theorem drawLoop_eq (n : Nat) : ∀ s w : List Card,
    drawLoop n s w =
      (s.drop (min n s.length), (s.take (min n s.length)).reverse ++ w) := by
  induction n with
  | zero => intro s w; simp [drawLoop]
  | succ n ih =>
    intro s w
    cases s with
    | nil => simp [drawLoop]
    | cons c s =>
      rw [drawLoop, ih]
      simp [Nat.succ_min_succ, List.take_succ_cons, List.drop_succ_cons]

/-! ## C1 -/

/-- C1: the full-deck constructor (`Deck()` with no card list) is claimed
to produce all 52 (rank, suit) combinations exactly once; instead the
comprehension passes `(s, r)` to `Card(rank, suit)`, the enum values are
coerced crosswise, and `Suit(5)` raises `ValueError` as soon as rank FIVE
is reached, so no deck is ever produced. -/
theorem default_deck_constructor_raises :
    deckInitDefault = .error (.value "5 is not a valid Suit") := by decide

/-! ## C6 -/

/-- C6: `Pile.needs()` is claimed to return the empty set when an Ace is
the top shown card; instead the `shown[0] == Rank.ACE` comparison is
always false (Card never equals a Rank), and building `Card(0, ...)`
raises `ValueError`.  (On an empty pile it does return the four kings, as
claimed.) -/
theorem pile_needs_ace_top_raises :
    pileNeeds ⟨[⟨1, Suit.clubs⟩], []⟩ = .error (.value "0 is not a valid Rank") ∧
    pileNeeds ⟨[], []⟩ = .ok cardKings := by decide

/-! ## C5 -/


/-- C5: `accessible_stock_cards` on stock=[7C,8C,9C], waste=[AC,2C,3C,5C,6C],
draw 3, unlimited passes: pass 2 yields exactly {AC, 9C, 3C, 7C}; pass 1
yields exactly {AC, 3C}.  (`Deck.flip` modelled as reverse, see
`deckFlip`.) -/
theorem accessible_stock_cards_example :
    ∃ l₂ l₁,
      accessibleStockCards stateC5pass2 = .ok l₂ ∧
      l₂.toFinset = ({⟨1, .clubs⟩, ⟨9, .clubs⟩, ⟨3, .clubs⟩, ⟨7, .clubs⟩} : Finset Card) ∧
      accessibleStockCards { stateC5pass2 with current_stock_pass := 1 } = .ok l₁ ∧
      l₁.toFinset = ({⟨1, .clubs⟩, ⟨3, .clubs⟩} : Finset Card) := by
  refine ⟨[⟨1, .clubs⟩, ⟨9, .clubs⟩, ⟨3, .clubs⟩, ⟨7, .clubs⟩],
    [⟨1, .clubs⟩, ⟨3, .clubs⟩], by decide, by decide, by decide, by decide⟩

/-! ## C9 -/

/-- C9: with `current_stock_pass = 1` and `pass_limit = 1`,
`has_useful_moves()` returns the indeterminate result (`None`) regardless
of the stock, waste, or tableau contents. -/
theorem has_useful_moves_pass1_limit1 (s : State)
    (h1 : s.current_stock_pass = 1) (h2 : s.pass_limit = 1) :
    hasUsefulMoves s = .ok none := by
  have hc : ¬ (s.current_stock_pass > 1 ∨ (s.stock.length = 0 ∧ s.pass_limit ≠ 1)) := by
    rw [h1, h2]; simp
  unfold hasUsefulMoves
  rw [if_pos hc]


/-- Witness for C9 at a concrete state. -/
theorem has_useful_moves_pass1_limit1_witness :
    (stateC9.current_stock_pass = 1 ∧ stateC9.pass_limit = 1) ∧
    hasUsefulMoves stateC9 = .ok none :=
  ⟨⟨rfl, rfl⟩, has_useful_moves_pass1_limit1 stateC9 rfl rfl⟩

/-! ## C10 -/

/-- C10: `Pile.take(count)` with `1 ≤ count ≤ len(shown)` returns exactly
`count` cards; together with the remaining shown and hidden cards they are
exactly the cards the pile held before, the total size drops by exactly
`count`, and at most one card moves from hidden to shown. -/
theorem pile_take_preserves_cards (p : Pile) (count : Nat)
    (h1 : 1 ≤ count) (h2 : count ≤ p.shown.length) :
    ∃ cs p', pileTake p count = .ok (cs, p') ∧
      cs.length = count ∧
      cs ++ p'.shown ++ p'.hidden = p.shown ++ p.hidden ∧
      p'.shown.length + p'.hidden.length + count = p.shown.length + p.hidden.length ∧
      (p'.hidden = p.hidden ∨ p'.hidden = p.hidden.drop 1) := by
  have hcl : (p.shown.take count).length = count := by
    simp [List.length_take]; omega
  unfold pileTake
  rw [if_neg (by omega), if_neg (by omega)]
  by_cases hrest : (p.shown.drop count).isEmpty = true ∧ ¬ p.hidden.isEmpty = true
  · rw [if_pos hrest]
    have hd : p.shown.drop count = [] := List.isEmpty_iff.mp hrest.1
    have htk : p.shown.take count = p.shown := by
      have h3 := List.take_append_drop count p.shown
      rw [hd, List.append_nil] at h3
      exact h3
    have hlen : count = p.shown.length := by
      have h4 := congrArg List.length htk
      rw [hcl] at h4
      exact h4
    refine ⟨_, _, rfl, hcl, ?_, ?_, Or.inr rfl⟩
    · show p.shown.take count ++ p.hidden.take 1 ++ p.hidden.drop 1 = p.shown ++ p.hidden
      rw [htk, List.append_assoc, List.take_append_drop]
    · show (p.hidden.take 1).length + (p.hidden.drop 1).length + count =
        p.shown.length + p.hidden.length
      have h5 : (p.hidden.take 1).length + (p.hidden.drop 1).length = p.hidden.length := by
        rw [← List.length_append, List.take_append_drop]
      omega
  · rw [if_neg hrest]
    refine ⟨_, _, rfl, hcl, ?_, ?_, Or.inl rfl⟩
    · show p.shown.take count ++ p.shown.drop count ++ p.hidden = p.shown ++ p.hidden
      rw [List.take_append_drop]
    · show (p.shown.drop count).length + p.hidden.length + count =
        p.shown.length + p.hidden.length
      simp [List.length_drop]
      omega

/-- Witness for C10: the spec's own example, shown=[AC,2C],
hidden=[3C,4C,5C], count=2. -/
theorem pile_take_preserves_cards_witness :
    (1 ≤ 2 ∧ 2 ≤ (Pile.mk [⟨1, .clubs⟩, ⟨2, .clubs⟩] [⟨3, .clubs⟩, ⟨4, .clubs⟩, ⟨5, .clubs⟩]).shown.length) ∧
    ∃ cs p', pileTake ⟨[⟨1, .clubs⟩, ⟨2, .clubs⟩], [⟨3, .clubs⟩, ⟨4, .clubs⟩, ⟨5, .clubs⟩]⟩ 2 = .ok (cs, p') ∧
      cs.length = 2 ∧
      cs ++ p'.shown ++ p'.hidden =
        (Pile.mk [⟨1, .clubs⟩, ⟨2, .clubs⟩] [⟨3, .clubs⟩, ⟨4, .clubs⟩, ⟨5, .clubs⟩]).shown ++
        (Pile.mk [⟨1, .clubs⟩, ⟨2, .clubs⟩] [⟨3, .clubs⟩, ⟨4, .clubs⟩, ⟨5, .clubs⟩]).hidden ∧
      p'.shown.length + p'.hidden.length + 2 =
        (Pile.mk [⟨1, .clubs⟩, ⟨2, .clubs⟩] [⟨3, .clubs⟩, ⟨4, .clubs⟩, ⟨5, .clubs⟩]).shown.length +
        (Pile.mk [⟨1, .clubs⟩, ⟨2, .clubs⟩] [⟨3, .clubs⟩, ⟨4, .clubs⟩, ⟨5, .clubs⟩]).hidden.length ∧
      (p'.hidden = (Pile.mk [⟨1, .clubs⟩, ⟨2, .clubs⟩] [⟨3, .clubs⟩, ⟨4, .clubs⟩, ⟨5, .clubs⟩]).hidden ∨
       p'.hidden = (Pile.mk [⟨1, .clubs⟩, ⟨2, .clubs⟩] [⟨3, .clubs⟩, ⟨4, .clubs⟩, ⟨5, .clubs⟩]).hidden.drop 1) :=
  ⟨⟨by decide, by decide⟩, pile_take_preserves_cards _ 2 (by decide) (by decide)⟩

/-! ## C3 -/


/-- C3: a failing `take_turn` is claimed to leave all live containers
unchanged; moving the hearts foundation top to tableau pile 0 in `gameC3`
fails (the waste top KD is not a valid stack on 3C) yet removes KD from
the waste. -/
theorem take_turn_failure_mutates_waste :
    (takeTurn gameC3 0 (.moveOne (.foundation .hearts) (.tableau 0))).2.isSome = true ∧
    (takeTurn gameC3 0 (.moveOne (.foundation .hearts) (.tableau 0))).1.waste ≠ gameC3.waste := by
  decide

/-! ## C8 -/


/-- C8: moving a foundation top to a needing tableau pile is claimed to
remove the card from the foundation and leave the waste unchanged; the
code instead draws the placed card from the waste: the turn succeeds, the
hearts foundation still holds 2H, the waste loses 2D, and 2D (not 2H) is
placed on the pile. -/
theorem move_foundation_card_moves_waste_card :
    (takeTurn gameC8 0 (.moveOne (.foundation .hearts) (.tableau 0))).2 = none ∧
    (takeTurn gameC8 0 (.moveOne (.foundation .hearts) (.tableau 0))).1.foundations.get .hearts =
      gameC8.foundations.get .hearts ∧
    gameC8.waste = [⟨2, .diamonds⟩] ∧
    (takeTurn gameC8 0 (.moveOne (.foundation .hearts) (.tableau 0))).1.waste = [] ∧
    ((takeTurn gameC8 0 (.moveOne (.foundation .hearts) (.tableau 0))).1.tableau.getD 0 default).shown =
      [⟨2, .diamonds⟩, ⟨3, .clubs⟩] := by
  decide

/-! ## C2 -/

/-- C2: `draw_stock()` on an empty stock.  With a non-empty waste and an
unexhausted pass limit it succeeds: the stock becomes the reversed former
waste minus the up-to-`draw_count` cards drawn, the pass counter
increments, and the waste holds exactly the drawn cards with the
last-drawn card on top.  With stock and waste both empty it raises the
"exhausted" rules violation; with the pass limit reached it raises the
"pass limit" rules violation, in both cases leaving the game unchanged.
(`Deck.flip` modelled as reverse, see `deckFlip`.) -/
theorem draw_stock_empty_stock_spec (g : Game) (hs : g.stock = []) :
    (g.waste ≠ [] → (g.stock_pass_limit = 0 ∨ g.current_stock_pass < g.stock_pass_limit) →
      ∃ g', drawStock g = (g', none) ∧
        g'.stock = g.waste.reverse.drop (min g.draw_count g.waste.length) ∧
        g'.waste = (g.waste.reverse.take (min g.draw_count g.waste.length)).reverse ∧
        g'.current_stock_pass = g.current_stock_pass + 1) ∧
    (g.waste = [] → drawStock g = (g, some (.rules "Stock and waste piles are empty"))) ∧
    (g.waste ≠ [] → 0 < g.stock_pass_limit → g.stock_pass_limit ≤ g.current_stock_pass →
      ∃ m, drawStock g = (g, some (.rules m))) := by
  have hse : g.stock.isEmpty = true := by rw [hs]; rfl
  refine ⟨?_, ?_, ?_⟩
  · intro hw hlim
    have hwe : ¬ g.waste.isEmpty = true := by
      simpa [List.isEmpty_iff] using hw
    have hpl : ¬ (g.stock_pass_limit > 0 ∧ g.current_stock_pass ≥ g.stock_pass_limit) := by
      rcases hlim with h | h <;> omega
    unfold drawStock
    rw [if_pos hse, if_neg hwe, if_neg hpl]
    refine ⟨_, rfl, ?_, ?_, ?_⟩
    · show (drawLoop g.draw_count (deckFlip g.waste) []).1 = _
      rw [deckFlip, drawLoop_eq]
      simp
    · show (drawLoop g.draw_count (deckFlip g.waste) []).2 = _
      rw [deckFlip, drawLoop_eq]
      simp
    · rfl
  · intro hw
    have hwe : g.waste.isEmpty = true := by rw [hw]; rfl
    unfold drawStock
    rw [if_pos hse, if_pos hwe]
  · intro hw h1 h2
    have hwe : ¬ g.waste.isEmpty = true := by
      simpa [List.isEmpty_iff] using hw
    have hpl : g.stock_pass_limit > 0 ∧ g.current_stock_pass ≥ g.stock_pass_limit :=
      ⟨h1, h2⟩
    unfold drawStock
    rw [if_pos hse, if_neg hwe, if_pos hpl]
    exact ⟨_, rfl⟩


/-- Witness for C2: drawing on `gameC2` flips the waste to [3C, 2C, 1C],
draws two cards, and leaves stock [1C], waste [2C, 3C], pass 2. -/
theorem draw_stock_empty_stock_spec_witness :
    (gameC2.stock = [] ∧ gameC2.waste ≠ [] ∧ gameC2.stock_pass_limit = 0) ∧
    ∃ g', drawStock gameC2 = (g', none) ∧
      g'.stock = gameC2.waste.reverse.drop (min gameC2.draw_count gameC2.waste.length) ∧
      g'.waste = (gameC2.waste.reverse.take (min gameC2.draw_count gameC2.waste.length)).reverse ∧
      g'.current_stock_pass = gameC2.current_stock_pass + 1 :=
  ⟨⟨rfl, by decide, rfl⟩,
    (draw_stock_empty_stock_spec gameC2 rfl).1 (by decide) (Or.inl rfl)⟩

/-! ## C4 -/


theorem drawStock_ok_history (g g' : Game) (h : drawStock g = (g', none)) :
    turnAppends g g' := by
  unfold drawStock at h
  dsimp only at h
  repeat' split at h
  all_goals
    first
      | (have h1 : _ = g' := congrArg Prod.fst h
         subst h1
         exact ⟨rfl, rfl, rfl⟩)
      | simp at h

theorem moveTableauStack_ok_history (g g' : Game) (sp dp count : Nat)
    (h : moveTableauStack g sp dp count = (g', none)) : turnAppends g g' := by
  unfold moveTableauStack at h
  dsimp only at h
  repeat' split at h
  all_goals
    first
      | (have h1 : _ = g' := congrArg Prod.fst h
         subst h1
         exact ⟨rfl, rfl, rfl⟩)
      | simp at h

theorem moveTableauCard_ok_history (g g' : Game) (sp : Nat) (dest : Location)
    (h : moveTableauCard g sp dest = (g', none)) : turnAppends g g' := by
  unfold moveTableauCard at h
  dsimp only at h
  repeat' split at h
  all_goals
    first
      | (have h1 : _ = g' := congrArg Prod.fst h
         subst h1
         exact ⟨rfl, rfl, rfl⟩)
      | simp at h

theorem moveWasteCard_ok_history (g g' : Game) (dest : Location)
    (h : moveWasteCard g dest = (g', none)) : turnAppends g g' := by
  unfold moveWasteCard at h
  dsimp only at h
  repeat' split at h
  all_goals
    first
      | (have h1 : _ = g' := congrArg Prod.fst h
         subst h1
         exact ⟨rfl, rfl, rfl⟩)
      | simp at h

theorem moveFoundationCard_ok_history (g g' : Game) (su : Suit) (dest : Location)
    (h : moveFoundationCard g su dest = (g', none)) : turnAppends g g' := by
  unfold moveFoundationCard at h
  dsimp only at h
  repeat' split at h
  all_goals
    first
      | (have h1 : _ = g' := congrArg Prod.fst h
         subst h1
         exact ⟨rfl, rfl, rfl⟩)
      | simp at h

/-- Every successful `take_turn` ends by appending exactly one snapshot of
the post-turn state to the history and never touches the configuration
fields. -/
theorem takeTurn_ok_history (g g' : Game) (a : Action)
    (h : takeTurn g 0 a = (g', none)) :
    g'.history = g.history ++ [gameState g'] ∧
    g'.stock_pass_limit = g.stock_pass_limit ∧
    g'.draw_count = g.draw_count := by
  have hp : ¬ ((0 : Int) ≠ 0) := by simp
  unfold takeTurn at h
  rw [if_neg hp] at h
  cases a with
  | draw => exact drawStock_ok_history g g' h
  | moveStack sp dp count => exact moveTableauStack_ok_history g g' sp dp count h
  | moveOne src dst =>
    cases src with
    | tableau p => exact moveTableauCard_ok_history g g' p dst h
    | waste => exact moveWasteCard_ok_history g g' dst h
    | foundation su => exact moveFoundationCard_ok_history g g' su dst h

/-- C4: after any successful `take_turn(0, action)` from a game whose last
history entry is its own current state (the invariant of every engine-made
game), a single `undo()` succeeds and restores a state structurally equal
to the pre-turn snapshot: same cards in every container, same shown/hidden
splits, same pass counter. -/
theorem take_turn_undo_round_trip (g g' : Game) (a : Action)
    (hne : g.history ≠ []) (hlast : g.history.getLast? = some (gameState g))
    (h : takeTurn g 0 a = (g', none)) :
    ∃ g'', undo g' = (g'', none) ∧ gameState g'' = gameState g := by
  obtain ⟨hh, hlim, hdc⟩ := takeTurn_ok_history g g' a h
  have hpos : 0 < g.history.length := List.length_pos.mpr hne
  have hlen : ¬ g'.history.length < 2 := by
    rw [hh]
    simp only [List.length_append, List.length_cons, List.length_nil]
    omega
  have hdl : g'.history.dropLast = g.history := by
    rw [hh, List.dropLast_concat]
  have hgld : g'.history.dropLast.getLastD default = gameState g := by
    rw [hdl, List.getLastD_eq_getLast?, hlast]
    rfl
  unfold undo
  rw [if_neg hlen]
  refine ⟨_, rfl, ?_⟩
  simp only [gameState, hgld, hlim, hdc]



/-- Witness for C4: draw a card on `gameC4`, undo, and recover the
pre-turn state. -/
theorem take_turn_undo_round_trip_witness :
    (gameC4.history ≠ [] ∧ gameC4.history.getLast? = some (gameState gameC4) ∧
      takeTurn gameC4 0 .draw = ((takeTurn gameC4 0 .draw).1, none)) ∧
    ∃ g'', undo (takeTurn gameC4 0 .draw).1 = (g'', none) ∧
      gameState g'' = gameState gameC4 :=
  ⟨⟨by decide, by decide, by decide⟩,
    take_turn_undo_round_trip gameC4 _ .draw (by decide) (by decide) (by decide)⟩

/-! ## C7 -/

theorem keyLe_total (a b : Action) : keyLe a b = true ∨ keyLe b a = true := by
  simp only [keyLe, decide_eq_true_eq]
  omega

theorem keyLe_trans (a b c : Action) (h1 : keyLe a b = true) (h2 : keyLe b c = true) :
    keyLe a c = true := by
  simp only [keyLe, decide_eq_true_eq] at h1 h2 ⊢
  omega

theorem mem_insertMove (x a : Action) (l : List Action) :
    a ∈ insertMove x l ↔ a = x ∨ a ∈ l := by
  induction l with
  | nil => simp [insertMove]
  | cons y l ih =>
    unfold insertMove
    by_cases h : keyLe y x = true
    · simp only [if_pos h, List.mem_cons, ih]
      try tauto
    · simp only [if_neg h, List.mem_cons]
      try tauto

theorem pairwise_insertMove (x : Action) (l : List Action)
    (h : l.Pairwise (fun a b => keyLe a b = true)) :
    (insertMove x l).Pairwise (fun a b => keyLe a b = true) := by
  induction l with
  | nil => simp [insertMove]
  | cons y l ih =>
    rcases List.pairwise_cons.mp h with ⟨hy, hl⟩
    unfold insertMove
    by_cases hc : keyLe y x = true
    · rw [if_pos hc]
      refine List.pairwise_cons.mpr ⟨?_, ih hl⟩
      intro b hb
      rcases (mem_insertMove x b l).mp hb with rfl | hbl
      · exact hc
      · exact hy b hbl
    · rw [if_neg hc]
      have hxy : keyLe x y = true := (keyLe_total x y).resolve_right hc
      refine List.pairwise_cons.mpr ⟨?_, h⟩
      intro b hb
      rcases List.mem_cons.mp hb with rfl | hbl
      · exact hxy
      · exact keyLe_trans x y b hxy (hy b hbl)

theorem sorted_sortMoves (l : List Action) :
    (sortMoves l).Pairwise (fun a b => keyLe a b = true) := by
  induction l with
  | nil => simp [sortMoves]
  | cons x l ih => exact pairwise_insertMove x (sortMoves l) ih

theorem mem_sortMoves (a : Action) (l : List Action) :
    a ∈ sortMoves l ↔ a ∈ l := by
  induction l with
  | nil => simp [sortMoves]
  | cons x l ih =>
    unfold sortMoves
    rw [mem_insertMove, ih, List.mem_cons]

theorem pileNeeds_ok_of_isOk (p : Pile) (h : exceptIsOk (pileNeeds p) = true) :
    pileNeeds p = .ok (pileNeedsD p) := by
  unfold pileNeedsD
  cases e : pileNeeds p with
  | ok l => rfl
  | error err => rw [e] at h; simp [exceptIsOk] at h

theorem foundationNeeds_ok_of_isOk (f : Foundation)
    (h : exceptIsOk (foundationNeeds f) = true) :
    foundationNeeds f = .ok (foundationNeedsD f) := by
  unfold foundationNeedsD
  cases e : foundationNeeds f with
  | ok r => rfl
  | error err => rw [e] at h; simp [exceptIsOk] at h

theorem wasteSection_eq (s : State)
    (hp : ∀ i, i < s.tableau.length → exceptIsOk (pileNeeds (s.tableau.getD i default)) = true)
    (hf : ∀ su ∈ suitList, exceptIsOk (foundationNeeds (s.foundations.get su)) = true) :
    wasteSection s = .ok (wasteVal s) := by
  unfold wasteSection wasteVal
  cases s.waste.head? with
  | none => rfl
  | some card =>
    try dsimp only
    have h1 : mapME (fun i => do
          let nds ← pileNeeds (s.tableau.getD i default)
          Except.ok (if card ∈ nds then [Action.moveOne .waste (.tableau i)] else []))
        (List.range s.tableau.length) =
        .ok ((List.range s.tableau.length).map (fun i =>
          if card ∈ pileNeedsD (s.tableau.getD i default) then
            [Action.moveOne .waste (.tableau i)] else [])) :=
      mapME_ok _ _ _ (fun i hi => by
        try dsimp only
        rw [pileNeeds_ok_of_isOk _ (hp i (List.mem_range.mp hi)), ok_bind])
    have h2 : mapME (fun su => do
          let nd ← foundationNeeds (s.foundations.get su)
          Except.ok (if nd = some card then [Action.moveOne .waste (.foundation su)] else []))
        suitList =
        .ok (suitList.map (fun su =>
          if foundationNeedsD (s.foundations.get su) = some card then
            [Action.moveOne .waste (.foundation su)] else [])) :=
      mapME_ok _ _ _ (fun su hsu => by
        try dsimp only
        rw [foundationNeeds_ok_of_isOk _ (hf su hsu), ok_bind])
    rw [h1, ok_bind, h2, ok_bind]

theorem singlesSection_eq (s : State)
    (hf : ∀ su ∈ suitList, exceptIsOk (foundationNeeds (s.foundations.get su)) = true) :
    singlesSection s = .ok (singlesVal s) := by
  unfold singlesSection singlesVal
  have h1 : mapME (fun idx =>
        match (s.tableau.getD idx default).shown with
        | [] => Except.ok []
        | c :: _ => do
          let inner ← mapME (fun su => do
              let nd ← foundationNeeds (s.foundations.get su)
              Except.ok (if nd = some c then
                [Action.moveOne (.tableau idx) (.foundation su)] else []))
            suitList
          Except.ok inner.flatten)
      (List.range s.tableau.length) =
      .ok ((List.range s.tableau.length).map (fun idx =>
        match (s.tableau.getD idx default).shown with
        | [] => []
        | c :: _ =>
          (suitList.map (fun su =>
            if foundationNeedsD (s.foundations.get su) = some c then
              [Action.moveOne (.tableau idx) (.foundation su)] else [])).flatten)) := by
    refine mapME_ok _ _ _ (fun idx _ => ?_)
    try dsimp only
    cases hsh : (s.tableau.getD idx default).shown with
    | nil => rfl
    | cons c rest =>
      try dsimp only
      have h2 : mapME (fun su => do
            let nd ← foundationNeeds (s.foundations.get su)
            Except.ok (if nd = some c then
              [Action.moveOne (.tableau idx) (.foundation su)] else []))
          suitList =
          .ok (suitList.map (fun su =>
            if foundationNeedsD (s.foundations.get su) = some c then
              [Action.moveOne (.tableau idx) (.foundation su)] else [])) :=
        mapME_ok _ _ _ (fun su hsu => by
          try dsimp only
          rw [foundationNeeds_ok_of_isOk _ (hf su hsu), ok_bind])
      rw [h2, ok_bind]
  rw [h1, ok_bind]

theorem stackSection_eq (s : State)
    (hp : ∀ i, i < s.tableau.length → exceptIsOk (pileNeeds (s.tableau.getD i default)) = true) :
    stackSection s = .ok (stackVal s) := by
  unfold stackSection stackVal
  have h1 : mapME (fun j => do
        let bots ← pileNeeds (s.tableau.getD j default)
        Except.ok (stackMovesInner s j bots))
      (List.range s.tableau.length) =
      .ok ((List.range s.tableau.length).map (fun j =>
        stackMovesInner s j (pileNeedsD (s.tableau.getD j default)))) :=
    mapME_ok _ _ _ (fun j hj => by
      try dsimp only
      rw [pileNeeds_ok_of_isOk _ (hp j (List.mem_range.mp hj)), ok_bind])
  rw [h1, ok_bind]

theorem foundationSection_eq (s : State)
    (hp : ∀ i, i < s.tableau.length → exceptIsOk (pileNeeds (s.tableau.getD i default)) = true) :
    foundationSection s = .ok (foundationVal s) := by
  unfold foundationSection foundationVal
  have h1 : mapME (fun su =>
        match (s.foundations.get su).cards with
        | [] => Except.ok []
        | card :: _ => do
          let inner ← mapME (fun i => do
              let nds ← pileNeeds (s.tableau.getD i default)
              Except.ok (if card ∈ nds then
                [Action.moveOne (.foundation su) (.tableau i)] else []))
            (List.range s.tableau.length)
          Except.ok inner.flatten)
      suitList =
      .ok (suitList.map (fun su =>
        match (s.foundations.get su).cards with
        | [] => []
        | card :: _ =>
          ((List.range s.tableau.length).map (fun i =>
            if card ∈ pileNeedsD (s.tableau.getD i default) then
              [Action.moveOne (.foundation su) (.tableau i)] else [])).flatten)) := by
    refine mapME_ok _ _ _ (fun su _ => ?_)
    try dsimp only
    cases hc : (s.foundations.get su).cards with
    | nil => rfl
    | cons card rest =>
      try dsimp only
      have h2 : mapME (fun i => do
            let nds ← pileNeeds (s.tableau.getD i default)
            Except.ok (if card ∈ nds then
              [Action.moveOne (.foundation su) (.tableau i)] else []))
          (List.range s.tableau.length) =
          .ok ((List.range s.tableau.length).map (fun i =>
            if card ∈ pileNeedsD (s.tableau.getD i default) then
              [Action.moveOne (.foundation su) (.tableau i)] else [])) :=
        mapME_ok _ _ _ (fun i hi => by
          try dsimp only
          rw [pileNeeds_ok_of_isOk _ (hp i (List.mem_range.mp hi)), ok_bind])
      rw [h2, ok_bind]
  rw [h1, ok_bind]

theorem legalMoves_eq (s : State)
    (hp : ∀ i, i < s.tableau.length → exceptIsOk (pileNeeds (s.tableau.getD i default)) = true)
    (hf : ∀ su ∈ suitList, exceptIsOk (foundationNeeds (s.foundations.get su)) = true) :
    legalMoves s = .ok (drawSection s ++ wasteVal s ++ singlesVal s ++
      sortMoves (stackVal s) ++ foundationVal s) := by
  unfold legalMoves
  rw [wasteSection_eq s hp hf, ok_bind, singlesSection_eq s hf, ok_bind,
    stackSection_eq s hp, ok_bind, foundationSection_eq s hp, ok_bind]

theorem not_stack_drawSection (s : State) :
    ∀ m ∈ drawSection s, isStack m = false := by
  intro m hm
  unfold drawSection at hm
  split at hm
  · rcases List.mem_singleton.mp hm with rfl
    rfl
  · cases hm

theorem not_stack_wasteVal (s : State) :
    ∀ m ∈ wasteVal s, isStack m = false := by
  intro m hm
  unfold wasteVal at hm
  split at hm
  · cases hm
  · rcases List.mem_append.mp hm with hm1 | hm1 <;>
    · rcases List.mem_flatten.mp hm1 with ⟨part, hpart, hmp⟩
      rcases List.mem_map.mp hpart with ⟨b, _, rfl⟩
      split at hmp
      · rcases List.mem_singleton.mp hmp with rfl
        rfl
      · cases hmp

theorem not_stack_singlesVal (s : State) :
    ∀ m ∈ singlesVal s, isStack m = false := by
  intro m hm
  unfold singlesVal at hm
  rcases List.mem_flatten.mp hm with ⟨part, hpart, hmp⟩
  rcases List.mem_map.mp hpart with ⟨idx, _, rfl⟩
  rcases hshown : (s.tableau.getD idx default).shown with _ | ⟨c, rest⟩
  · rw [hshown] at hmp
    cases hmp
  · rw [hshown] at hmp
    simp only at hmp
    rcases List.mem_flatten.mp hmp with ⟨part2, hpart2, hmp2⟩
    rcases List.mem_map.mp hpart2 with ⟨su, _, rfl⟩
    split at hmp2
    · rcases List.mem_singleton.mp hmp2 with rfl
      rfl
    · cases hmp2

theorem not_stack_foundationVal (s : State) :
    ∀ m ∈ foundationVal s, isStack m = false := by
  intro m hm
  unfold foundationVal at hm
  rcases List.mem_flatten.mp hm with ⟨part, hpart, hmp⟩
  rcases List.mem_map.mp hpart with ⟨su, _, rfl⟩
  rcases hcards : (s.foundations.get su).cards with _ | ⟨card, rest⟩
  · rw [hcards] at hmp
    cases hmp
  · rw [hcards] at hmp
    simp only at hmp
    rcases List.mem_flatten.mp hmp with ⟨part2, hpart2, hmp2⟩
    rcases List.mem_map.mp hpart2 with ⟨i, _, rfl⟩
    split at hmp2
    · rcases List.mem_singleton.mp hmp2 with rfl
      rfl
    · cases hmp2

theorem stack_stackVal (s : State) :
    ∀ m ∈ stackVal s, isStack m = true := by
  intro m hm
  unfold stackVal at hm
  rcases List.mem_flatten.mp hm with ⟨part, hpart, hmp⟩
  rcases List.mem_map.mp hpart with ⟨j, _, rfl⟩
  unfold stackMovesInner at hmp
  rcases List.mem_filterMap.mp hmp with ⟨i, _, hfi⟩
  split at hfi
  · cases hfi
  · rcases Option.map_eq_some'.mp hfi with ⟨k, _, rfl⟩
    rfl

theorem mem_stackVal (s : State) (i j c : Nat) :
    Action.moveStack i j c ∈ stackVal s ↔
      (i < s.tableau.length ∧ j < s.tableau.length ∧ i ≠ j ∧
        firstDepth s i j = some c) := by
  unfold stackVal
  rw [List.mem_flatten]
  constructor
  · rintro ⟨part, hpart, hmp⟩
    rcases List.mem_map.mp hpart with ⟨j', hj', rfl⟩
    unfold stackMovesInner at hmp
    rcases List.mem_filterMap.mp hmp with ⟨i', hi', hfi⟩
    split at hfi
    · cases hfi
    · rcases Option.map_eq_some'.mp hfi with ⟨k, hscan, hmk⟩
      rcases hmk with ⟨⟩
      rename_i hne
      refine ⟨List.mem_range.mp hi', List.mem_range.mp hj', hne, ?_⟩
      unfold firstDepth
      rw [hscan]
      rfl
  · rintro ⟨hi, hj, hne, hfd⟩
    unfold firstDepth at hfd
    rcases Option.map_eq_some'.mp hfd with ⟨k, hscan, hk⟩
    refine ⟨stackMovesInner s j (pileNeedsD (s.tableau.getD j default)),
      List.mem_map.mpr ⟨j, List.mem_range.mpr hj, rfl⟩, ?_⟩
    unfold stackMovesInner
    refine List.mem_filterMap.mpr ⟨i, List.mem_range.mpr hi, ?_⟩
    rw [if_neg hne, hscan]
    simp [hk]


/-- Counterexample to C7 as stated: `legal_moves()` does not enumerate
moves for every state; with an Ace-topped tableau pile the `needs()` call
of the stack-move scan raises `ValueError`. -/
theorem legal_moves_raises_on_ace_top :
    legalMoves stateC7ace = .error (.value "0 is not a valid Rank") := by decide

/-- C7 (amended): for every state in which every tableau pile's `needs()`
and every foundation's `needs()` computation succeeds (in particular no
pile has an Ace as its top shown card), `legal_moves()` contains the stack
move `(i, j, c)` exactly when `i ≠ j` are pile indices and `c` is the
depth of the first shown card of pile `i` that pile `j` needs; at most one
stack move is emitted per ordered pair, and the stack moves appear sorted
by `(source, dest)` ascending. -/
theorem legal_moves_stack_enumeration (s : State)
    (hp : ∀ i, i < s.tableau.length → exceptIsOk (pileNeeds (s.tableau.getD i default)) = true)
    (hf : ∀ su ∈ suitList, exceptIsOk (foundationNeeds (s.foundations.get su)) = true) :
    ∃ ms, legalMoves s = .ok ms ∧
      (∀ i j c, Action.moveStack i j c ∈ ms ↔
        (i < s.tableau.length ∧ j < s.tableau.length ∧ i ≠ j ∧
          firstDepth s i j = some c)) ∧
      (∀ i j c c', Action.moveStack i j c ∈ ms → Action.moveStack i j c' ∈ ms → c = c') ∧
      (ms.filter isStack).Pairwise (fun a b => keyLe a b = true) := by
  have hiff : ∀ i j c, Action.moveStack i j c ∈
      (drawSection s ++ wasteVal s ++ singlesVal s ++ sortMoves (stackVal s) ++
        foundationVal s) ↔
      (i < s.tableau.length ∧ j < s.tableau.length ∧ i ≠ j ∧
        firstDepth s i j = some c) := by
    intro i j c
    constructor
    · intro hm
      rcases List.mem_append.mp hm with hm1 | hm1
      · rcases List.mem_append.mp hm1 with hm2 | hm2
        · rcases List.mem_append.mp hm2 with hm3 | hm3
          · rcases List.mem_append.mp hm3 with hm4 | hm4
            · exact absurd (not_stack_drawSection s _ hm4) (by simp [isStack])
            · exact absurd (not_stack_wasteVal s _ hm4) (by simp [isStack])
          · exact absurd (not_stack_singlesVal s _ hm3) (by simp [isStack])
        · exact (mem_stackVal s i j c).mp ((mem_sortMoves _ _).mp hm2)
      · exact absurd (not_stack_foundationVal s _ hm1) (by simp [isStack])
    · intro hc
      refine List.mem_append.mpr (Or.inl (List.mem_append.mpr (Or.inr ?_)))
      exact (mem_sortMoves _ _).mpr ((mem_stackVal s i j c).mpr hc)
  refine ⟨_, legalMoves_eq s hp hf, hiff, ?_, ?_⟩
  · intro i j c c' h1 h2
    have e1 := (hiff i j c).mp h1
    have e2 := (hiff i j c').mp h2
    have hss : some c = some c' := by rw [← e1.2.2.2, ← e2.2.2.2]
    exact Option.some.inj hss
  · rw [List.filter_append, List.filter_append, List.filter_append, List.filter_append]
    rw [List.filter_eq_nil_iff.mpr (fun a ha => by simp [not_stack_drawSection s a ha]),
      List.filter_eq_nil_iff.mpr (fun a ha => by simp [not_stack_wasteVal s a ha]),
      List.filter_eq_nil_iff.mpr (fun a ha => by simp [not_stack_singlesVal s a ha]),
      List.filter_eq_self.mpr (fun a ha => stack_stackVal s a ((mem_sortMoves _ _).mp ha)),
      List.filter_eq_nil_iff.mpr (fun a ha => by simp [not_stack_foundationVal s a ha])]
    simp only [List.nil_append, List.append_nil]
    exact sorted_sortMoves _


/-- Witness for the amended C7 at `stateC7w`. -/
theorem legal_moves_stack_enumeration_witness :
    ((∀ i, i < stateC7w.tableau.length →
        exceptIsOk (pileNeeds (stateC7w.tableau.getD i default)) = true) ∧
      (∀ su ∈ suitList, exceptIsOk (foundationNeeds (stateC7w.foundations.get su)) = true)) ∧
    (∃ ms, legalMoves stateC7w = .ok ms ∧
      (∀ i j c, Action.moveStack i j c ∈ ms ↔
        (i < stateC7w.tableau.length ∧ j < stateC7w.tableau.length ∧ i ≠ j ∧
          firstDepth stateC7w i j = some c)) ∧
      (∀ i j c c', Action.moveStack i j c ∈ ms → Action.moveStack i j c' ∈ ms → c = c') ∧
      (ms.filter isStack).Pairwise (fun a b => keyLe a b = true)) :=
  ⟨⟨by decide, by decide⟩,
    legal_moves_stack_enumeration stateC7w (by decide) (by decide)⟩

end Klondike
